import Mathlib

/-!
Shallow embedding of the AGI protocol engine of `agi.go` (package `agi`).
The byte streams are modelled by the list of lines that a `bufio.Scanner`
would yield; Go strings are Lean `String`s.
-/

/-- ASCII digit: the `[\d]` class of `responseRegex` and the digits accepted
by `strconv.Atoi`. -/
def isDigitA (c : Char) : Bool := 48 ≤ c.toNat && c.toNat ≤ 57

/-- ASCII letter, the alphabetic part of `[[:alnum:]]` (ASCII in RE2). -/
def isAlphaA (c : Char) : Bool :=
  (65 ≤ c.toNat && c.toNat ≤ 90) || (97 ≤ c.toNat && c.toNat ≤ 122)

/-- The POSIX class `[[:alnum:]]` of `responseRegex`. -/
def isAlnumA (c : Char) : Bool := isDigitA c || isAlphaA c

/-- The RE2 Perl class `\s`, i.e. `[\t\n\f\r ]`. -/
def isRE2Space (c : Char) : Bool :=
  c == '\t' || c == '\n' || c == '\x0c' || c == '\r' || c == ' '

/-- Go `unicode.IsSpace`, the class trimmed by `strings.TrimSpace`. -/
def goIsSpace (c : Char) : Bool :=
  c == ' ' || c == '\t' || c == '\n' || c == '\x0b' || c == '\x0c' || c == '\r' ||
  c == '\x85' || c == '\xa0' || c == ' ' ||
  (decide (0x2000 ≤ c.toNat) && decide (c.toNat ≤ 0x200a)) ||
  c == ' ' || c == ' ' || c == ' ' || c == ' ' || c == '　'

/-- Go `strings.TrimSpace` on the character list: drop `unicode.IsSpace`
characters from both ends. -/
def goTrimSpaceL (cs : List Char) : List Char :=
  ((cs.dropWhile goIsSpace).reverse.dropWhile goIsSpace).reverse

/-- Go `strings.TrimSpace`. -/
def goTrimSpace (s : String) : String := ⟨goTrimSpaceL s.data⟩

/-- Go `strings.HasPrefix`. -/
def goStartsWith (s pre : String) : Bool := pre.data.isPrefixOf s.data

/-- Go `strings.TrimPrefix`: drop `pre` from the front of `s` when present. -/
def goTrimPrefixStr (s pre : String) : String :=
  if goStartsWith s pre then ⟨s.data.drop pre.data.length⟩ else s

/-- Go `strings.HasSuffix`. -/
def goEndsWith (s suf : String) : Bool := suf.data.isSuffixOf s.data

/-- Go `strings.TrimSuffix`: drop `suf` from the end of `s` when present. -/
def goTrimSuffixStr (s suf : String) : String :=
  if goEndsWith s suf then ⟨s.data.take (s.data.length - suf.data.length)⟩ else s

/-- Decimal value of a digit string. -/
def digitsToNat (ds : List Char) : Nat :=
  ds.foldl (fun acc c => acc * 10 + (c.toNat - 48)) 0

/-- Digit-run conversion of `strconv.ParseInt` (bit size 64) after the sign
has been split off: a syntax error yields value `0`, a range error the
clamped value, exactly as Go documents. -/
def goAtoiCore (neg : Bool) (ds : List Char) : Int × Bool :=
  if ds.isEmpty || !ds.all isDigitA then (0, false)
  else if neg then
    if digitsToNat ds ≤ 2 ^ 63 then (-(digitsToNat ds : Int), true)
    else (-((2 : Int) ^ 63), false)
  else
    if digitsToNat ds ≤ 2 ^ 63 - 1 then ((digitsToNat ds : Int), true)
    else ((2 : Int) ^ 63 - 1, false)

/-- Go `strconv.Atoi` on a 64-bit platform: the parsed value together with an
ok flag (`false` is a non-nil `error`): an optional sign followed by a
nonempty all-digit run. -/
def goAtoi (s : String) : Int × Bool :=
  match s.data with
  | [] => (0, false)
  | c :: cs => goAtoiCore (c == '-') (if c == '-' || c == '+' then cs else c :: cs)

/-- The token capture of `responseRegex`: an optional leading `-` followed
by the maximal alphanumeric run; returns the token and the rest. -/
def spanToken : List Char → List Char × List Char
  | '-' :: r => ('-' :: r.takeWhile isAlnumA, r.dropWhile isAlnumA)
  | r => (r.takeWhile isAlnumA, r.dropWhile isAlnumA)

/-- Submatch extraction of
`responseRegex = ^([\d]{3})\sresult=(\-?[[:alnum:]]*)(\s.*)?$`
(RE2 leftmost-first semantics made deterministic: the optional `-` is taken
when present and the alphanumeric run is maximal; the line matches iff what
remains is empty, or starts with a `\s` character and contains no further
newline, since `.` does not match a newline).  Returns the three capture
groups; the unmatched optional third group is `[]`, as
`FindStringSubmatch` reports the empty string there. -/
def parseReplyL : List Char → Option (List Char × List Char × List Char)
  | d1 :: d2 :: d3 :: sp :: rest =>
    if isDigitA d1 && isDigitA d2 && isDigitA d3 && isRE2Space sp then
      if "result=".data.isPrefixOf rest then
        match spanToken (rest.drop 7) with
        | (tok, []) => some ([d1, d2, d3], tok, [])
        | (tok, c :: cr) =>
          if isRE2Space c && cr.all (fun x => x != '\n') then
            some ([d1, d2, d3], tok, c :: cr)
          else none
      else none
    else none
  | _ => none

/-- Application of `responseRegex.FindStringSubmatch` as the three capture groups. -/
def parseReply (s : String) : Option (String × String × String) :=
  (parseReplyL s.data).map (fun p => (⟨p.1⟩, ⟨p.2.1⟩, ⟨p.2.2⟩))

/-- The error values `Command` can produce, tagged by construction site;
the payload is the raw line (or the write-error message) that Go
interpolates into the error string. -/
inductive GoErr where
  | sendFailed (msg : String)
  | parseFailed (raw : String)
  | statusFailed (raw : String)
  | resultFailed (raw : String)
  | timeoutErr
  | non200 (raw : String)
deriving DecidableEq

/-- The `Response` struct: `Error`, `Status`, `Result`, `ResultString`,
`Value`. -/
structure Response where
  Error : Option GoErr
  Status : Int
  Result : Int
  ResultString : String
  Value : String
deriving DecidableEq

/-- Go `&Response{}`: the zero value every `Command` call starts from. -/
def Response.empty : Response :=
  { Error := none, Status := 0, Result := 0, ResultString := "", Value := "" }

/-- Constant `StatusOK = 200`. -/
def StatusOK : Int := 200

/-- Lines 267-269 of `Command`:
`strings.TrimSuffix(strings.TrimPrefix(strings.TrimSpace(pieces[3]), "("), ")")`. -/
def extractValue (p3 : String) : String :=
  goTrimSuffixStr (goTrimPrefixStr (goTrimSpace p3) "(") ")"

/-- Lines 246-272 of `Command` on the decisive (non-empty, non-`HANGUP`)
line: regex match, status `Atoi` (a failure breaks out), result `Atoi`
(a failure sets `Error` but does not break), and value extraction. -/
def parseOne (l : String) : Response :=
  match parseReply l with
  | none => { Response.empty with Error := some (.parseFailed l) }
  | some (p1, p2, p3) =>
    let st := goAtoi p1
    if !st.2 then { Response.empty with Status := st.1, Error := some (.statusFailed l) }
    else
      let rc := goAtoi p2
      { Error := if rc.2 then none else some (.resultFailed l)
        Status := st.1
        Result := rc.1
        ResultString := p2
        Value := extractValue p3 }

/-- The scanner loop of `Command` (lines 234-273): stop at an empty line or
at end of stream, skip `HANGUP` notification lines, and otherwise process
the line with `parseOne` and stop.  Returns the response, the final value
of the `raw` variable, and the lines left unread. -/
def readLoop : List String → String → Response × String × List String
  | [], raw => (Response.empty, raw, [])
  | l :: rest, _ =>
    if l = "" then (Response.empty, l, rest)
    else if goStartsWith l "HANGUP" then readLoop rest l
    else (parseOne l, l, rest)

/-- Lines 287-290 of `Command`: a non-`StatusOK` status with no error so
far becomes the `Non-200 status code.` error, carrying `raw`. -/
def postCheck (r : Response) (raw : String) : Response :=
  if r.Status ≠ StatusOK ∧ r.Error = none then
    { r with Error := some (.non200 raw) }
  else r

/-- Method `Command` with zero timeout (the reading goroutine is awaited to
completion), the write outcome abstracted: `writeErr = some msg` models a
failing `a.w.Write`, in which case the function returns at line 225 without
reading.  Returns the response and the unread lines of the input stream. -/
def commandRun (writeErr : Option String) (lines : List String) :
    Response × List String :=
  match writeErr with
  | some msg => ({ Response.empty with Error := some (.sendFailed msg) }, lines)
  | none =>
    let out := readLoop lines ""
    (postCheck out.1 out.2.1, out.2.2)

/-- The line the read loop will try to parse: the first line that is not a
`HANGUP` notification (an empty line also stops the search, being the loop
terminator). -/
def firstReply (lines : List String) : Option String :=
  lines.find? (fun l => !goStartsWith l "HANGUP")

/-- Go `strings.SplitN(s, sep, 2)` seen as the parts around the first
occurrence of `sep`, or `none` when `sep` does not occur (in which case Go
returns the one-element slice `[s]`). -/
def splitFirst : List Char → Char → Option (List Char × List Char)
  | [], _ => none
  | c :: cs, sep =>
    if c = sep then some ([], cs)
    else (splitFirst cs sep).map (fun p => (c :: p.1, p.2))

/-- The key/value pair one handshake line contributes (lines 142-145 of
`NewWithEAGI`): `SplitN(line, ":", 2)` and `TrimSpace` on both halves;
`none` for a colon-free line, which is ignored. -/
def colonKV (l : String) : Option (String × String) :=
  match splitFirst l.data ':' with
  | some p => some (goTrimSpace ⟨p.1⟩, goTrimSpace ⟨p.2⟩)
  | none => none

/-- Go map assignment `m[k] = v` on an association-list model of
`a.Variables`: overwrite the entry for `k` when present, else add it. -/
def insertVar : List (String × String) → String → String → List (String × String)
  | [], k, v => [(k, v)]
  | (k0, v0) :: rest, k, v =>
    if k0 = k then (k0, v) :: rest else (k0, v0) :: insertVar rest k v

/-- Go map lookup `m[k]`. -/
def lookupVar (m : List (String × String)) (k : String) : Option String :=
  (m.find? (fun p => p.1 == k)).map (fun p => p.2)

/-- The scanner loop of `NewWithEAGI` (lines 136-146): read lines until an
empty one (consumed), inserting the split-and-trimmed pair of every line
containing a colon. -/
def handshakeLoop : List String → List (String × String) →
    List (String × String) × List String
  | [], m => (m, [])
  | l :: rest, m =>
    if l = "" then (m, rest)
    else
      match colonKV l with
      | some kv => handshakeLoop rest (insertVar m kv.1 kv.2)
      | none => handshakeLoop rest m

/-- Constructor `NewWithEAGI`: the handshake-populated `Variables` mapping and the part
of the input stream left for later commands. -/
def newSession (lines : List String) : List (String × String) × List String :=
  handshakeLoop lines []

/-- The key/value pairs contributed by the handshake block (the lines up to
the first empty line), in order — the spec's description of the handshake
content, for comparison with `newSession`. -/
def blockKVs (lines : List String) : List (String × String) :=
  (lines.takeWhile (fun l => l != "")).filterMap colonKV

/-- The value of the last occurrence of key `k` in a key/value list — the
spec's "duplicate keys resolve to the last occurrence". -/
def lastVal (kvs : List (String × String)) (k : String) : Option String :=
  (kvs.reverse.find? (fun p => p.1 == k)).map (fun p => p.2)

/-- Function `Listen` and its address defaulting (lines 169-174 of `agi.go`). -/
def listenAddr (addr : String) : String :=
  if addr = "" then "localhost:4573" else addr


/-! ### Helper lemmas -/

theorem parseReplyL_shape {cs : List Char} {q : List Char × List Char × List Char}
    (h : parseReplyL cs = some q) :
    ∃ d1 d2 d3 sp r, cs = d1 :: d2 :: d3 :: sp :: r ∧ isDigitA d1 = true := by
  match cs with
  | [] => simp [parseReplyL] at h
  | [_] => simp [parseReplyL] at h
  | [_, _] => simp [parseReplyL] at h
  | [_, _, _] => simp [parseReplyL] at h
  | d1 :: d2 :: d3 :: sp :: r =>
    refine ⟨d1, d2, d3, sp, r, rfl, ?_⟩
    by_cases hg : (isDigitA d1 && isDigitA d2 && isDigitA d3 && isRE2Space sp) = true
    · simp only [Bool.and_eq_true] at hg
      exact hg.1.1.1
    · rw [parseReplyL, if_neg hg] at h
      exact Option.noConfusion h

theorem parseReply_shape {l : String} {p : String × String × String}
    (h : parseReply l = some p) :
    ∃ d1 d2 d3 sp r, l.data = d1 :: d2 :: d3 :: sp :: r ∧ isDigitA d1 = true := by
  unfold parseReply at h
  cases hq : parseReplyL l.data with
  | none => rw [hq] at h; exact Option.noConfusion h
  | some q => exact parseReplyL_shape hq

theorem parseReply_ne_empty {l : String} {p : String × String × String}
    (h : parseReply l = some p) : l ≠ "" := by
  obtain ⟨d1, d2, d3, sp, r, hd, -⟩ := parseReply_shape h
  intro he
  rw [he] at hd
  exact List.noConfusion ((rfl : ("" : String).data = []) ▸ hd)

theorem parseReply_not_hangup {l : String} {p : String × String × String}
    (h : parseReply l = some p) : goStartsWith l "HANGUP" = false := by
  obtain ⟨d1, d2, d3, sp, r, hd, hdig⟩ := parseReply_shape h
  have hne : ('H' == d1) = false := by
    apply beq_eq_false_iff_ne.mpr
    intro he
    rw [← he] at hdig
    exact absurd hdig (by decide)
  unfold goStartsWith
  rw [hd, (rfl : ("HANGUP" : String).data = ['H', 'A', 'N', 'G', 'U', 'P'])]
  simp [List.isPrefixOf, hne]

theorem readLoop_cons_reply {l : String} {p : String × String × String}
    (hp : parseReply l = some p) (rest : List String) (raw : String) :
    readLoop (l :: rest) raw = (parseOne l, l, rest) := by
  have h0 := parseReply_ne_empty hp
  have h1 := parseReply_not_hangup hp
  simp [readLoop, h0, h1]

/-! ### Claim theorems -/

/-- Claim C3: a line beginning with `HANGUP` in front of a grammar-matching
reply line is skipped by `Command`'s read loop: the call behaves exactly as
if the `HANGUP` line were absent, returning the parse of the valid reply. -/
theorem hangup_line_skipped (hl l : String) (rest : List String)
    (h1 : goStartsWith hl "HANGUP" = true) (h2 : parseReply l ≠ none) :
    commandRun none (hl :: l :: rest) = commandRun none (l :: rest) := by
  obtain ⟨p, hp⟩ : ∃ p, parseReply l = some p := by
    cases hq : parseReply l with
    | none => exact absurd hq h2
    | some p => exact ⟨p, rfl⟩
  have hne : hl ≠ "" := by
    intro he
    rw [he, (by decide : goStartsWith "" "HANGUP" = false)] at h1
    exact Bool.noConfusion h1
  have e1 : readLoop (hl :: l :: rest) "" = readLoop (l :: rest) hl := by
    simp [readLoop, hne, h1]
  unfold commandRun
  rw [e1, readLoop_cons_reply hp rest hl, readLoop_cons_reply hp rest ""]

theorem hangup_line_skipped_witness :
    goStartsWith "HANGUP detected" "HANGUP" = true ∧
    parseReply "200 result=1" ≠ none ∧
    commandRun none ["HANGUP detected", "200 result=1"] = commandRun none ["200 result=1"] :=
  ⟨by decide, by decide,
    hangup_line_skipped "HANGUP detected" "200 result=1" [] (by decide) (by decide)⟩

/-- Claim C4: a non-empty line that is not a `HANGUP` notification and does
not match `responseRegex` makes `Command` stop with a parse error, leaving
all further lines of the stream unread. -/
theorem malformed_line_parse_error (l : String) (rest : List String)
    (h0 : l ≠ "") (h1 : goStartsWith l "HANGUP" = false) (h2 : parseReply l = none) :
    commandRun none (l :: rest) =
      ({ Response.empty with Error := some (.parseFailed l) }, rest) := by
  simp [commandRun, readLoop, h0, h1, parseOne, h2, postCheck, Response.empty]

theorem malformed_line_parse_error_witness :
    ("banana" : String) ≠ "" ∧
    goStartsWith "banana" "HANGUP" = false ∧
    parseReply "banana" = none ∧
    commandRun none ["banana", "200 result=1"] =
      ({ Response.empty with Error := some (.parseFailed "banana") }, ["200 result=1"]) :=
  ⟨by decide, by decide, by decide,
    malformed_line_parse_error "banana" ["200 result=1"] (by decide) (by decide) (by decide)⟩

/-- Claim C6: a failed write makes `Command` return at once with only
`Error` set (to the transport-failure kind); `Status`, `Result`,
`ResultString` and `Value` stay at their zero values and the input stream
is not read at all. -/
theorem write_failure_no_read (msg : String) (lines : List String) :
    commandRun (some msg) lines =
      ({ Error := some (.sendFailed msg), Status := 0, Result := 0,
         ResultString := "", Value := "" }, lines) := rfl

/-- Claim C8: `Listen` with an empty address binds to the documented
default `localhost:4573`, and uses any non-empty address unchanged. -/
theorem listen_default_address :
    listenAddr "" = "localhost:4573" ∧ ∀ a : String, a ≠ "" → listenAddr a = a :=
  ⟨rfl, fun _ h => if_neg h⟩

theorem listen_default_address_witness :
    ("127.0.0.1:8080" : String) ≠ "" ∧ listenAddr "127.0.0.1:8080" = "127.0.0.1:8080" :=
  ⟨by decide, listen_default_address.2 "127.0.0.1:8080" (by decide)⟩

/-- Claim C1 counterexample: `200 result=on` matches `responseRegex` and
gives `Status = 200`, yet `Command` returns a non-nil `Error` (the failed
`strconv.Atoi` of the result token at lines 262-265 of `agi.go`), so
`Error = nil` is not equivalent to `Status = 200` plus a full grammar
match. -/
theorem error_nil_iff_cex :
    (commandRun none ["200 result=on"]).1.Status = 200 ∧
    parseReply "200 result=on" ≠ none ∧
    (commandRun none ["200 result=on"]).1.Error ≠ none := by decide

/-- Claim C2 counterexample: for the grammar-matching reply
`200 result=on` with a non-integer result token, `Command` does leave
`ResultString = "on"` and `Result = 0`, but its `Error` is **not** nil:
the failed integer conversion is escalated into `resp.Error`. -/
theorem nonint_result_cex :
    (commandRun none ["200 result=on"]).1.ResultString = "on" ∧
    (commandRun none ["200 result=on"]).1.Result = 0 ∧
    (commandRun none ["200 result=on"]).1.Error ≠ none := by decide

theorem goTrimSpaceL_cons_space {c : Char} (h : goIsSpace c = true) (w : List Char) :
    goTrimSpaceL (c :: w) = goTrimSpaceL w := by
  simp [goTrimSpaceL, List.dropWhile_cons, h]

theorem goTrimSpaceL_sandwich {a b : Char} (ha : goIsSpace a = false)
    (hb : goIsSpace b = false) (mid : List Char) :
    goTrimSpaceL (a :: mid ++ [b]) = a :: mid ++ [b] := by
  simp [goTrimSpaceL, List.dropWhile_cons, ha, hb, List.reverse_append]

theorem extractValue_paren (v : String) : extractValue (" (" ++ v ++ ")") = v := by
  have hdata : (" (" ++ v ++ ")").data = ' ' :: ('(' :: v.data ++ [')']) := by
    rw [String.data_append, String.data_append]; rfl
  have h1 : goTrimSpace (" (" ++ v ++ ")") = ⟨'(' :: v.data ++ [')']⟩ := by
    unfold goTrimSpace
    rw [hdata, goTrimSpaceL_cons_space (by decide),
      goTrimSpaceL_sandwich (by decide) (by decide)]
  unfold extractValue
  rw [h1]
  have h2 : goTrimPrefixStr ⟨'(' :: v.data ++ [')']⟩ "(" = ⟨v.data ++ [')']⟩ := by
    unfold goTrimPrefixStr
    rw [if_pos (by simp [goStartsWith, List.isPrefixOf])]
    rfl
  rw [h2]
  have h3 : goTrimSuffixStr ⟨v.data ++ [')']⟩ ")" = ⟨v.data⟩ := by
    unfold goTrimSuffixStr
    rw [if_pos (by simp [goEndsWith, List.isSuffixOf, List.reverse_append, List.isPrefixOf])]
    congr 1
    have hlen : ((⟨v.data ++ [')']⟩ : String).data).length - ((")" : String).data).length
        = v.data.length := by simp
    rw [hlen]
    exact List.take_left v.data [')']
  rw [h3]

/-- Claim C7: `200 result=1 (avail)` parses to status 200, result 1,
result-string `"1"` and value `"avail"`; and in general a third capture
group consisting of a space and a parenthesized payload has exactly the
wrapping parentheses stripped when `Value` is extracted. -/
theorem parenthesized_value :
    (commandRun none ["200 result=1 (avail)"]).1 =
      { Error := none, Status := 200, Result := 1, ResultString := "1", Value := "avail" } ∧
    ∀ v : String, extractValue (" (" ++ v ++ ")") = v :=
  ⟨by decide, extractValue_paren⟩

theorem readLoop_all_hangup : ∀ (lines : List String) (raw : String),
    (∀ l ∈ lines.takeWhile (fun l => l != ""), goStartsWith l "HANGUP" = true) →
    (readLoop lines raw).1 = Response.empty := by
  intro lines
  induction lines with
  | nil => intro raw _; rfl
  | cons l rest ih =>
    intro raw h
    by_cases he : l = ""
    · simp [readLoop, he]
    · have hl : goStartsWith l "HANGUP" = true := by
        apply h l
        rw [List.takeWhile_cons, if_pos (by simp [he])]
        exact List.mem_cons_self l _
      have hrest : ∀ l' ∈ rest.takeWhile (fun l => l != ""), goStartsWith l' "HANGUP" = true := by
        intro l' hm
        apply h l'
        rw [List.takeWhile_cons, if_pos (by simp [he])]
        exact List.mem_cons_of_mem l hm
      simp only [readLoop, if_neg he, hl, if_true]
      exact ih l hrest

/-- Claim C10: when the stream ends, or yields the empty terminator line,
before any reply line is parsed (every prior line being a skipped `HANGUP`
notification), `Command` with zero timeout leaves `Status = 0` and reports
the non-success-status error kind (`Non-200 status code.`), not a parse or
transport error. -/
theorem no_reply_non200 (lines : List String)
    (h : ∀ l ∈ lines.takeWhile (fun l => l != ""), goStartsWith l "HANGUP" = true) :
    (commandRun none lines).1.Status = 0 ∧
    ∃ raw, (commandRun none lines).1.Error = some (.non200 raw) := by
  have h1 := readLoop_all_hangup lines "" h
  have e : (commandRun none lines).1
      = postCheck (readLoop lines "").1 (readLoop lines "").2.1 := rfl
  rw [e, h1]
  unfold postCheck
  rw [if_pos (by decide)]
  exact ⟨rfl, ⟨(readLoop lines "").2.1, rfl⟩⟩

theorem no_reply_non200_witness :
    (∀ l ∈ (["HANGUP now", ""] : List String).takeWhile (fun l => l != ""),
      goStartsWith l "HANGUP" = true) ∧
    ((commandRun none ["HANGUP now", ""]).1.Status = 0 ∧
     ∃ raw, (commandRun none ["HANGUP now", ""]).1.Error = some (.non200 raw)) :=
  ⟨by decide, no_reply_non200 ["HANGUP now", ""] (by decide)⟩

theorem goAtoi_vals (s : String) :
    (goAtoi s).2 = true ∨ (goAtoi s).1 = 0 ∨
    (goAtoi s).1 = -((2 : Int) ^ 63) ∨ (goAtoi s).1 = (2 : Int) ^ 63 - 1 := by
  have core : ∀ (neg : Bool) (ds : List Char),
      (goAtoiCore neg ds).2 = true ∨ (goAtoiCore neg ds).1 = 0 ∨
      (goAtoiCore neg ds).1 = -((2 : Int) ^ 63) ∨
      (goAtoiCore neg ds).1 = (2 : Int) ^ 63 - 1 := by
    intro neg ds
    unfold goAtoiCore
    split_ifs <;> simp
  unfold goAtoi
  split
  · right; left; rfl
  · exact core _ _

theorem postCheck_error_none (r : Response) (raw : String) :
    (postCheck r raw).Error = none ↔ (r.Error = none ∧ r.Status = StatusOK) := by
  unfold postCheck
  split
  · rename_i hcond
    exact iff_of_false (by simp) (fun h => hcond.1 h.2)
  · rename_i hcond
    constructor
    · intro h
      refine ⟨h, ?_⟩
      by_contra hs
      exact hcond ⟨hs, h⟩
    · exact fun h => h.1

theorem postCheck_status (r : Response) (raw : String) :
    (postCheck r raw).Status = r.Status := by
  unfold postCheck
  split <;> rfl

theorem readLoop_firstReply : ∀ (lines : List String) (raw : String),
    (readLoop lines raw).1 =
      (match firstReply lines with
       | none => Response.empty
       | some l => if l = "" then Response.empty else parseOne l) := by
  intro lines
  induction lines with
  | nil => intro raw; rfl
  | cons l rest ih =>
    intro raw
    by_cases he : l = ""
    · subst he
      have hf : firstReply ("" :: rest) = some "" :=
        List.find?_cons_of_pos _ (by decide)
      rw [hf]
      simp [readLoop]
    · by_cases hh : goStartsWith l "HANGUP" = true
      · have hf : firstReply (l :: rest) = firstReply rest :=
          List.find?_cons_of_neg _ (by simp [hh])
        rw [hf]
        simp only [readLoop, if_neg he, hh, if_true]
        exact ih l
      · have hfalse : goStartsWith l "HANGUP" = false := by
          cases hgs : goStartsWith l "HANGUP"
          · rfl
          · exact absurd hgs hh
        have hf : firstReply (l :: rest) = some l :=
          List.find?_cons_of_pos _ (by simp [hfalse])
        rw [hf]
        simp [readLoop, he, hfalse]

/-- Claim C1 (amended): `Command`'s `Error` is nil iff the status is the
success code 200 **and** the decisive line matched the grammar **and** the
result token converted to an integer — the conversion failure at lines
262-265 of `agi.go` also makes `Error` non-nil, unlike the original claim. -/
theorem error_nil_iff (lines : List String) :
    (commandRun none lines).1.Error = none ↔
      ((commandRun none lines).1.Status = StatusOK ∧
       ∃ l p1 p2 p3, firstReply lines = some l ∧ parseReply l = some (p1, p2, p3) ∧
         (goAtoi p2).2 = true) := by
  have e1 : (commandRun none lines).1
      = postCheck (readLoop lines "").1 (readLoop lines "").2.1 := rfl
  rw [e1, postCheck_error_none, postCheck_status, readLoop_firstReply lines ""]
  cases hf : firstReply lines with
  | none => simp [Response.empty, StatusOK]
  | some l =>
    have hred : (match some l with
        | none => Response.empty
        | some l => if l = "" then Response.empty else parseOne l) =
        (if l = "" then Response.empty else parseOne l) := rfl
    rw [hred]
    by_cases he : l = ""
    · subst he
      rw [if_pos rfl]
      simp [Response.empty, StatusOK, (by decide : parseReply "" = none)]
    · rw [if_neg he]
      unfold parseOne
      cases hp : parseReply l with
      | none => simp [Response.empty, StatusOK, hp]
      | some p =>
        obtain ⟨p1, p2, p3⟩ := p
        cases hst : (goAtoi p1).2 with
        | false =>
          have hne : (goAtoi p1).1 ≠ 200 := by
            rcases goAtoi_vals p1 with h | h | h | h
            · rw [hst] at h; exact Bool.noConfusion h
            · rw [h]; decide
            · rw [h]; decide
            · rw [h]; decide
          simp [hst, Response.empty, StatusOK, hne, hp]
        | true =>
          cases hrc : (goAtoi p2).2 with
          | true =>
            simp [hst, hrc, StatusOK, hp]
            exact fun _ => ⟨p1, p2, ⟨rfl, rfl⟩, hrc⟩
          | false => simp [hst, hrc, StatusOK, hp]

theorem parseReplyL_status {cs : List Char} {q1 q2 q3 : List Char}
    (h : parseReplyL cs = some (q1, q2, q3)) :
    ∃ d1 d2 d3, q1 = [d1, d2, d3] ∧ isDigitA d1 = true ∧ isDigitA d2 = true ∧
      isDigitA d3 = true := by
  match cs with
  | [] => simp [parseReplyL] at h
  | [_] => simp [parseReplyL] at h
  | [_, _] => simp [parseReplyL] at h
  | [_, _, _] => simp [parseReplyL] at h
  | d1 :: d2 :: d3 :: sp :: r =>
    rw [parseReplyL] at h
    by_cases hg : (isDigitA d1 && isDigitA d2 && isDigitA d3 && isRE2Space sp) = true
    · rw [if_pos hg] at h
      simp only [Bool.and_eq_true] at hg
      refine ⟨d1, d2, d3, ?_, hg.1.1.1, hg.1.1.2, hg.1.2⟩
      by_cases hpre : ("result=".data.isPrefixOf r) = true
      · rw [if_pos hpre] at h
        cases htr : spanToken (r.drop 7) with
        | mk tok rem =>
          rw [htr] at h
          cases rem with
          | nil =>
            have h' : some ([d1, d2, d3], tok, ([] : List Char)) = some (q1, q2, q3) := h
            injection h' with h1
            exact (congrArg Prod.fst h1).symm
          | cons c cr =>
            have h' : (if (isRE2Space c && cr.all (fun x => x != '\n')) = true then
                some ([d1, d2, d3], tok, c :: cr) else none) = some (q1, q2, q3) := h
            by_cases hsp : (isRE2Space c && cr.all (fun x => x != '\n')) = true
            · rw [if_pos hsp] at h'
              injection h' with h1
              exact (congrArg Prod.fst h1).symm
            · rw [if_neg hsp] at h'
              exact Option.noConfusion h'
      · rw [if_neg hpre] at h
        exact Option.noConfusion h
    · rw [if_neg hg] at h
      exact Option.noConfusion h

theorem goAtoi_three_digits {d1 d2 d3 : Char} (h1 : isDigitA d1 = true)
    (h2 : isDigitA d2 = true) (h3 : isDigitA d3 = true) :
    (goAtoi ⟨[d1, d2, d3]⟩).2 = true := by
  have n1 : 48 ≤ d1.toNat ∧ d1.toNat ≤ 57 := by simpa [isDigitA] using h1
  have hd1m : (d1 == '-') = false := by
    apply beq_eq_false_iff_ne.mpr
    intro he
    rw [he] at n1
    exact absurd n1.1 (by decide)
  have hd1p : (d1 == '+') = false := by
    apply beq_eq_false_iff_ne.mpr
    intro he
    rw [he] at n1
    exact absurd n1.1 (by decide)
  have hfold : digitsToNat [d1, d2, d3] ≤ 999 := by
    have n2 : 48 ≤ d2.toNat ∧ d2.toNat ≤ 57 := by simpa [isDigitA] using h2
    have n3 : 48 ≤ d3.toNat ∧ d3.toNat ≤ 57 := by simpa [isDigitA] using h3
    simp only [digitsToNat, List.foldl]
    omega
  have hle : digitsToNat [d1, d2, d3] ≤ 2 ^ 63 - 1 := by
    have hpow : (2 : Nat) ^ 63 - 1 = 9223372036854775807 := by norm_num
    omega
  have e : goAtoi ⟨[d1, d2, d3]⟩
      = goAtoiCore (d1 == '-') (if d1 == '-' || d1 == '+' then [d2, d3] else [d1, d2, d3]) := rfl
  rw [e, hd1m, hd1p]
  show (goAtoiCore false [d1, d2, d3]).2 = true
  unfold goAtoiCore
  rw [if_neg (by simp [h1, h2, h3]), if_neg (by simp), if_pos hle]

theorem parseReply_status_ok {l p1 p2 p3 : String}
    (hp : parseReply l = some (p1, p2, p3)) : (goAtoi p1).2 = true := by
  unfold parseReply at hp
  cases hq : parseReplyL l.data with
  | none => rw [hq] at hp; exact Option.noConfusion hp
  | some q =>
    rw [hq] at hp
    obtain ⟨q1, q2, q3⟩ := q
    obtain ⟨d1, d2, d3, hq1, h1, h2, h3⟩ := parseReplyL_status hq
    have hp' : some ((⟨q1⟩ : String), (⟨q2⟩ : String), (⟨q3⟩ : String))
        = some (p1, p2, p3) := hp
    injection hp' with h4
    have hp1 : p1 = ⟨q1⟩ := (congrArg Prod.fst h4).symm
    rw [hp1, hq1]
    exact goAtoi_three_digits h1 h2 h3

/-- Claim C2 (amended): for a grammar-matching reply line whose result
token fails integer conversion (a syntax error, e.g. `200 result=on`),
`Command` leaves `ResultString` at the verbatim token and `Result` at zero,
but — contrary to the original claim — escalates the failed conversion:
`Error` is the result-conversion error of lines 262-265 of `agi.go`, not
nil. -/
theorem nonint_result_escalated (l p1 p2 p3 : String) (rest : List String)
    (hp : parseReply l = some (p1, p2, p3)) (ha : goAtoi p2 = (0, false)) :
    (commandRun none (l :: rest)).1.ResultString = p2 ∧
    (commandRun none (l :: rest)).1.Result = 0 ∧
    (commandRun none (l :: rest)).1.Error = some (.resultFailed l) := by
  have hst := parseReply_status_ok hp
  have e : (commandRun none (l :: rest)).1 = postCheck (parseOne l) l := by
    have e1 : (commandRun none (l :: rest)).1
        = postCheck (readLoop (l :: rest) "").1 (readLoop (l :: rest) "").2.1 := rfl
    rw [e1, readLoop_cons_reply hp rest ""]
  rw [e]
  unfold parseOne
  rw [hp]
  simp [hst, ha, postCheck, StatusOK]

theorem nonint_result_escalated_witness :
    parseReply "200 result=on" = some ("200", "on", "") ∧
    goAtoi "on" = (0, false) ∧
    ((commandRun none ["200 result=on"]).1.ResultString = "on" ∧
     (commandRun none ["200 result=on"]).1.Result = 0 ∧
     (commandRun none ["200 result=on"]).1.Error = some (.resultFailed "200 result=on")) :=
  ⟨by decide, by decide,
    nonint_result_escalated "200 result=on" "200" "on" "" [] (by decide) (by decide)⟩

theorem find?_cons_pair (k0 v0 k : String) (tl : List (String × String)) :
    List.find? (fun p => p.1 == k) ((k0, v0) :: tl)
      = if k0 = k then some (k0, v0) else List.find? (fun p => p.1 == k) tl := by
  by_cases h : k0 = k
  · rw [if_pos h, List.find?_cons_of_pos _ (by simp [h])]
  · rw [if_neg h, List.find?_cons_of_neg _ (by simp [h])]

theorem lookupVar_cons (k0 v0 k : String) (tl : List (String × String)) :
    lookupVar ((k0, v0) :: tl) k = if k0 = k then some v0 else lookupVar tl k := by
  unfold lookupVar
  rw [find?_cons_pair]
  by_cases h : k0 = k
  · rw [if_pos h, if_pos h]; rfl
  · rw [if_neg h, if_neg h]

theorem lookupVar_insertVar (m : List (String × String)) (a b k : String) :
    lookupVar (insertVar m a b) k = if a = k then some b else lookupVar m k := by
  induction m with
  | nil =>
    show lookupVar [(a, b)] k = if a = k then some b else lookupVar [] k
    rw [lookupVar_cons]
  | cons hd tl ih =>
    obtain ⟨k0, v0⟩ := hd
    by_cases h0 : k0 = a
    · subst h0
      have e : insertVar ((k0, v0) :: tl) k0 b = (k0, b) :: tl := by
        rw [insertVar, if_pos rfl]
      rw [e, lookupVar_cons, lookupVar_cons]
      by_cases hk : k0 = k
      · rw [if_pos hk, if_pos hk]
      · rw [if_neg hk, if_neg hk, if_neg hk]
    · have e : insertVar ((k0, v0) :: tl) a b = (k0, v0) :: insertVar tl a b := by
        rw [insertVar, if_neg h0]
      rw [e, lookupVar_cons, lookupVar_cons, ih]
      by_cases hk : k0 = k
      · have hak : ¬a = k := fun he => h0 (hk.trans he.symm)
        rw [if_pos hk, if_neg hak, if_pos hk]
      · rw [if_neg hk]
        by_cases hak : a = k
        · rw [if_pos hak, if_pos hak]
        · rw [if_neg hak, if_neg hak, if_neg hk]

theorem insertVar_keys_mem (m : List (String × String)) (a b x : String) :
    x ∈ (insertVar m a b).map (fun p => p.1) ↔
      x ∈ m.map (fun p => p.1) ∨ x = a := by
  induction m with
  | nil => simp [insertVar]
  | cons hd tl ih =>
    obtain ⟨k0, v0⟩ := hd
    by_cases h0 : k0 = a
    · subst h0
      have e : insertVar ((k0, v0) :: tl) k0 b = (k0, b) :: tl := by
        rw [insertVar, if_pos rfl]
      rw [e]
      simp only [List.map_cons, List.mem_cons]
      tauto
    · have e : insertVar ((k0, v0) :: tl) a b = (k0, v0) :: insertVar tl a b := by
        rw [insertVar, if_neg h0]
      rw [e]
      simp only [List.map_cons, List.mem_cons, ih]
      tauto

theorem insertVar_keys_nodup (m : List (String × String)) (a b : String)
    (h : (m.map (fun p => p.1)).Nodup) :
    ((insertVar m a b).map (fun p => p.1)).Nodup := by
  induction m with
  | nil => simp [insertVar]
  | cons hd tl ih =>
    obtain ⟨k0, v0⟩ := hd
    simp only [List.map_cons, List.nodup_cons] at h
    by_cases h0 : k0 = a
    · subst h0
      have e : insertVar ((k0, v0) :: tl) k0 b = (k0, b) :: tl := by
        rw [insertVar, if_pos rfl]
      rw [e]
      simp only [List.map_cons, List.nodup_cons]
      exact h
    · have e : insertVar ((k0, v0) :: tl) a b = (k0, v0) :: insertVar tl a b := by
        rw [insertVar, if_neg h0]
      rw [e]
      simp only [List.map_cons, List.nodup_cons]
      refine ⟨?_, ih h.2⟩
      intro hmem
      rcases (insertVar_keys_mem tl a b k0).mp hmem with hin | heq
      · exact h.1 hin
      · exact h0 heq

theorem option_map_or {α β : Type} (o o' : Option α) (f : α → β) :
    (o.or o').map f = (o.map f).or (o'.map f) := by
  cases o <;> rfl

theorem lastVal_cons (a b k : String) (kvs : List (String × String)) :
    lastVal ((a, b) :: kvs) k
      = Option.or (lastVal kvs k) (if a = k then some b else none) := by
  unfold lastVal
  rw [List.reverse_cons, List.find?_append, option_map_or, find?_cons_pair]
  by_cases hak : a = k
  · rw [if_pos hak, if_pos hak]
    rfl
  · rw [if_neg hak, if_neg hak]
    rfl

theorem blockKVs_cons_some (l : String) (rest : List String) (a b : String)
    (he : ¬l = "") (hc : colonKV l = some (a, b)) :
    blockKVs (l :: rest) = (a, b) :: blockKVs rest := by
  unfold blockKVs
  rw [List.takeWhile_cons, if_pos (by simp [he]), List.filterMap_cons, hc]

theorem blockKVs_cons_none (l : String) (rest : List String)
    (he : ¬l = "") (hc : colonKV l = none) :
    blockKVs (l :: rest) = blockKVs rest := by
  unfold blockKVs
  rw [List.takeWhile_cons, if_pos (by simp [he]), List.filterMap_cons, hc]

theorem handshakeLoop_lookup : ∀ (lines : List String) (m : List (String × String))
    (k : String),
    lookupVar (handshakeLoop lines m).1 k
      = Option.or (lastVal (blockKVs lines) k) (lookupVar m k) := by
  intro lines
  induction lines with
  | nil => intro m k; rfl
  | cons l rest ih =>
    intro m k
    by_cases he : l = ""
    · subst he
      rfl
    · cases hc : colonKV l with
      | none =>
        have e : handshakeLoop (l :: rest) m = handshakeLoop rest m := by
          rw [handshakeLoop, if_neg he, hc]
        rw [e, ih, blockKVs_cons_none l rest he hc]
      | some kv =>
        obtain ⟨a, b⟩ := kv
        have e : handshakeLoop (l :: rest) m = handshakeLoop rest (insertVar m a b) := by
          rw [handshakeLoop, if_neg he, hc]
        rw [e, ih, lookupVar_insertVar, blockKVs_cons_some l rest a b he hc,
          lastVal_cons, Option.or_assoc]
        congr 1
        by_cases hak : a = k
        · rw [if_pos hak, if_pos hak]
          rfl
        · rw [if_neg hak, if_neg hak]
          rfl

theorem handshakeLoop_keys : ∀ (lines : List String) (m : List (String × String))
    (x : String),
    x ∈ ((handshakeLoop lines m).1.map (fun p => p.1)) ↔
      (x ∈ m.map (fun p => p.1) ∨ x ∈ (blockKVs lines).map (fun p => p.1)) := by
  intro lines
  induction lines with
  | nil => intro m x; simp [handshakeLoop, blockKVs]
  | cons l rest ih =>
    intro m x
    by_cases he : l = ""
    · subst he
      show x ∈ m.map (fun p => p.1) ↔ _
      simp [blockKVs]
    · cases hc : colonKV l with
      | none =>
        have e : handshakeLoop (l :: rest) m = handshakeLoop rest m := by
          rw [handshakeLoop, if_neg he, hc]
        rw [e, blockKVs_cons_none l rest he hc]
        exact ih m x
      | some kv =>
        obtain ⟨a, b⟩ := kv
        have e : handshakeLoop (l :: rest) m = handshakeLoop rest (insertVar m a b) := by
          rw [handshakeLoop, if_neg he, hc]
        rw [e, blockKVs_cons_some l rest a b he hc, ih, insertVar_keys_mem]
        simp only [List.map_cons, List.mem_cons]
        tauto

theorem handshakeLoop_nodup : ∀ (lines : List String) (m : List (String × String)),
    (m.map (fun p => p.1)).Nodup →
    ((handshakeLoop lines m).1.map (fun p => p.1)).Nodup := by
  intro lines
  induction lines with
  | nil => intro m h; exact h
  | cons l rest ih =>
    intro m h
    by_cases he : l = ""
    · subst he
      exact h
    · cases hc : colonKV l with
      | none =>
        have e : handshakeLoop (l :: rest) m = handshakeLoop rest m := by
          rw [handshakeLoop, if_neg he, hc]
        rw [e]
        exact ih m h
      | some kv =>
        obtain ⟨a, b⟩ := kv
        have e : handshakeLoop (l :: rest) m = handshakeLoop rest (insertVar m a b) := by
          rw [handshakeLoop, if_neg he, hc]
        rw [e]
        exact ih (insertVar m a b) (insertVar_keys_nodup m a b h)

theorem handshakeLoop_rest : ∀ (lines : List String) (m : List (String × String)),
    (handshakeLoop lines m).2 = (lines.dropWhile (fun l => l != "")).drop 1 := by
  intro lines
  induction lines with
  | nil => intro m; rfl
  | cons l rest ih =>
    intro m
    by_cases he : l = ""
    · subst he
      rw [List.dropWhile_cons, if_neg (by simp)]
      rfl
    · rw [List.dropWhile_cons, if_pos (by simp [he])]
      cases hc : colonKV l with
      | none =>
        have e : handshakeLoop (l :: rest) m = handshakeLoop rest m := by
          rw [handshakeLoop, if_neg he, hc]
        rw [e, ih]
      | some kv =>
        obtain ⟨a, b⟩ := kv
        have e : handshakeLoop (l :: rest) m = handshakeLoop rest (insertVar m a b) := by
          rw [handshakeLoop, if_neg he, hc]
        rw [e, ih]

/-- Claim C5: `NewWithEAGI`'s handshake loop consumes the lines up to and
including the first empty line; the `Variables` mapping has exactly one
entry per distinct key occurring in a colon-containing line of the block
(split at the first colon, both halves trimmed, colon-free lines ignored),
with duplicate keys resolved to the last occurrence. -/
theorem handshake_variables (lines : List String) :
    (∀ k, lookupVar (newSession lines).1 k = lastVal (blockKVs lines) k) ∧
    ((newSession lines).1.map (fun p => p.1)).Nodup ∧
    (∀ k, k ∈ (newSession lines).1.map (fun p => p.1) ↔
       k ∈ (blockKVs lines).map (fun p => p.1)) ∧
    (newSession lines).2 = (lines.dropWhile (fun l => l != "")).drop 1 := by
  refine ⟨fun k => ?_, ?_, fun k => ?_, ?_⟩
  · rw [newSession, handshakeLoop_lookup]
    exact Option.or_none
  · exact handshakeLoop_nodup lines [] (by simp)
  · rw [newSession, handshakeLoop_keys]
    simp
  · exact handshakeLoop_rest lines []

theorem error_nil_iff_witness :
    (commandRun none ["200 result=1"]).1.Error = none :=
  (error_nil_iff ["200 result=1"]).mpr
    ⟨by decide, "200 result=1", "200", "1", "", by decide, by decide, by decide⟩
